import Mathlib

/-!
Shallow embedding of the ShieldCLI WAF core (Go) in Lean 4.

Modelling conventions, applied throughout:
* A Go `string` is modelled as a Lean `String` (a sequence of runes).  Where the
  Go code uses `len(s)` (the UTF-8 byte length) this is modelled explicitly by
  `goLen`, which sums the UTF-8 widths of the runes.
* Go `float64` arithmetic is idealised: exact rationals (`ℚ`) for the efficacy
  analyser, real numbers (`ℝ`) for the Shannon-entropy computation.
* Side effects that do not influence the data flow (logging, mutexes,
  timestamps) are dropped.
* Go's `regexp` library is external to the repository; a compiled regex is
  modelled as an optional Boolean matcher (`Option (String → Bool)`), and
  `regexp.Compile` as an oracle `String → Option (String → Bool)`.  The two
  regex patterns that actually occur in the program are given their exact RE2
  semantics by hand (`regexMatch1003`, `regexMatch1004`).
-/

namespace ShieldCli

/-! ## Go string primitives (package `strings` fragment used by the core) -/

/-- `strings.Contains(s, sub)`: `sub` occurs as a contiguous substring of `s`. -/
def containsStr (s sub : String) : Bool :=
  decide (sub.data <:+: s.data)

/-- `strings.HasPrefix(s, pre)`. -/
def startsWithStr (s pre : String) : Bool :=
  decide (pre.data <+: s.data)

/-- `strings.HasSuffix(s, suf)`. -/
def endsWithStr (s suf : String) : Bool :=
  decide (suf.data <:+ s.data)

/-- `strings.TrimPrefix(s, pre)`: drops `pre` when it is a prefix, else `s`. -/
def trimPre (s pre : String) : String :=
  if startsWithStr s pre then ⟨s.data.drop pre.data.length⟩ else s

/-- Rune-level case mapping of `strings.ToUpper`, restricted to ASCII.
The Unicode tables of the Go standard library are external; every matcher
token in the program is ASCII, for which this mapping is exact. -/
def goUpperChar (c : Char) : Char :=
  if 97 ≤ c.toNat ∧ c.toNat ≤ 122 then Char.ofNat (c.toNat - 32) else c

/-- Rune-level case mapping of `strings.ToLower`, restricted to ASCII. -/
def goLowerChar (c : Char) : Char :=
  if 65 ≤ c.toNat ∧ c.toNat ≤ 90 then Char.ofNat (c.toNat + 32) else c

/-- `strings.ToUpper` (ASCII fragment). -/
def goToUpper (s : String) : String := ⟨s.data.map goUpperChar⟩

/-- `strings.ToLower` (ASCII fragment). -/
def goToLower (s : String) : String := ⟨s.data.map goLowerChar⟩

/-- Case-insensitive containment: the needle occurs in the haystack up to
(ASCII) case.  This is the spec-side notion used to characterise the
SQLi/XSS matchers. -/
def ciContains (hay needle : String) : Prop :=
  (goToUpper needle).data <:+: (goToUpper hay).data

/-- UTF-8 byte length of a Go string (`len(s)` in Go). -/
def goLen (s : String) : Nat := (s.data.map Char.utf8Size).sum

/-- `textproto.CanonicalMIMEHeaderKey`, character-case part: the first
letter and every letter following a hyphen are upper-cased, the rest
lower-cased.  (The Go function also validates token characters; header
names used by the program are valid tokens.) -/
def canonicalKeyAux : Bool → List Char → List Char
  | _, [] => []
  | up, c :: rest =>
    (if up then goUpperChar c else goLowerChar c) :: canonicalKeyAux (c = '-') rest

/-- Canonical form of a header key, as used by `http.Header`. -/
def canonicalHeaderKey (s : String) : String := ⟨canonicalKeyAux true s.data⟩

/-- `http.Header.Get(name)`: first value stored under the canonical key,
or the empty string.  Headers are modelled as an association list whose
keys are already canonical (as Go's `http.Header` stores them). -/
def headerGet (headers : List (String × List String)) (name : String) : String :=
  match headers.find? (fun kv => kv.1 = canonicalHeaderKey name) with
  | some (_, v :: _) => v
  | _ => ""

/-! ## package `waf`: the rule model (`rules.go`) -/

/-- Go `type RuleAction string`. -/
abbrev RuleAction := String

def ActionBlock : RuleAction := "block"

def ActionLog : RuleAction := "log"

def ActionPass : RuleAction := "pass"

/-- Go `type RulePhase string`. -/
abbrev RulePhase := String

def PhaseRequestHeaders : RulePhase := "request_headers"

def PhaseRequestURI : RulePhase := "request_uri"

def PhaseRequestBody : RulePhase := "request_body"

def PhaseResponseHeaders : RulePhase := "response_headers"

def PhaseResponseBody : RulePhase := "response_body"

/-- Go `type RuleOperator string`. -/
abbrev RuleOperator := String

def OpContains : RuleOperator := "contains"

def OpRegex : RuleOperator := "regex"

def OpStartsWith : RuleOperator := "startswith"

def OpEndsWith : RuleOperator := "endswith"

def OpEquals : RuleOperator := "equals"

def OpNotContains : RuleOperator := "notcontains"

def OpNotRegex : RuleOperator := "notregex"

def OpHighEntropy : RuleOperator := "high_entropy"

def OpSQLi : RuleOperator := "sqli"

def OpXSS : RuleOperator := "xss"

/-- `waf.Rule`.  The unexported `regex` field holds the compiled pattern:
`none` when `Compile` was never run (Go `nil`), `some m` after a successful
compilation.  Field defaults are Go zero values. -/
structure Rule where
  ID : Int := 0
  Name : String := ""
  Description : String := ""
  Phase : RulePhase := ""
  Operator : RuleOperator := ""
  Pattern : String := ""
  Target : String := ""
  Action : RuleAction := ""
  Severity : String := ""
  Enabled : Bool := false
  regex : Option (String → Bool) := none

/-- `(*Rule).Compile` with the regex library abstracted as the oracle `rc`
(`none` = compilation error).  On success the compiled matcher is stored;
for non-regex operators nothing happens.  Returns `none` on error (Go
returns a non-nil `error`). -/
def Rule.Compile (rc : String → Option (String → Bool)) (r : Rule) : Option Rule :=
  if r.Operator = OpRegex ∨ r.Operator = OpNotRegex then
    match rc r.Pattern with
    | none => none
    | some m => some { r with regex := some m }
  else some r

/-- `calculateEntropy` (rules.go): Shannon entropy over rune frequencies.
Note the Go original divides each rune count by `len(s)`, the *byte*
length, modelled here by `goLen`.  The iteration order of the Go `map` is
irrelevant because real addition is commutative; the distinct runes are
enumerated by `dedup`. -/
noncomputable def calculateEntropy (s : String) : ℝ :=
  if goLen s = 0 then 0
  else (s.data.dedup.map (fun c =>
    let p : ℝ := (s.data.count c : ℝ) / (goLen s : ℝ);
    -(p * Real.logb 2 p))).sum

/-- The integer product `∏ f_c ^ f_c` over the rune frequencies of `s`. -/
def freqPowProd (s : String) : Nat :=
  ∏ c ∈ s.data.toFinset, (s.data.count c) ^ (s.data.count c)

/-- Decidable form of the comparison `calculateEntropy s > 4.0` used by the
`high_entropy` operator: with `L` the byte length, `R` the rune count and
`P = ∏ f_c ^ f_c`, the entropy exceeds 4 exactly when `P · 2^(4L) < L^R`.
The equivalence with the real-valued entropy is proved in
`highEntropyB_iff` below. -/
def highEntropyB (s : String) : Bool :=
  decide (freqPowProd s * 2 ^ (4 * goLen s) < goLen s ^ s.data.length)

/-- The fixed SQLi token list of `detectSQLi`. -/
def sqlPatterns : List String :=
  ["' OR '1'='1",
   "' OR 1=1",
   "'; DROP TABLE",
   "UNION SELECT",
   "' OR 'a'='a",
   "admin' --",
   "' /*",
   "*/ OR /*",
   "xp_",
   "sp_"]

/-- `detectSQLi` (rules.go): upper-cases the data once and scans the token
list, returning at the first containment hit. -/
def detectSQLi (data : String) : Bool :=
  let upperData := goToUpper data
  sqlPatterns.any (fun pat => containsStr upperData (goToUpper pat))

/-- The fixed XSS token list of `detectXSS` (all tokens lower-case). -/
def xssPatterns : List String :=
  ["<script",
   "javascript:",
   "onerror=",
   "onload=",
   "onclick=",
   "onmouseover=",
   "<iframe",
   "<object",
   "<embed",
   "<img",
   "<svg"]

/-- `detectXSS` (rules.go): lower-cases the data once and scans the token
list. -/
def detectXSS (data : String) : Bool :=
  let lowerData := goToLower data
  xssPatterns.any (fun pat => containsStr lowerData pat)

/-- `(*Rule).Match` (rules.go).  The `high_entropy` branch of the Go code
is `calculateEntropy(data) > 4.0`; it is embedded by the decidable
equivalent `highEntropyB` (see `highEntropyB_iff`). -/
def Rule.Match (r : Rule) (data : String) : Bool :=
  if !r.Enabled then false
  else if r.Operator = OpContains then containsStr data r.Pattern
  else if r.Operator = OpNotContains then !containsStr data r.Pattern
  else if r.Operator = OpRegex then
    match r.regex with
    | none => false
    | some m => m data
  else if r.Operator = OpNotRegex then
    match r.regex with
    | none => false
    | some m => !m data
  else if r.Operator = OpStartsWith then startsWithStr data r.Pattern
  else if r.Operator = OpEndsWith then endsWithStr data r.Pattern
  else if r.Operator = OpEquals then data = r.Pattern
  else if r.Operator = OpHighEntropy then highEntropyB data
  else if r.Operator = OpSQLi then detectSQLi data
  else if r.Operator = OpXSS then detectXSS data
  else false

/-! ## The two regex patterns occurring in the program, with RE2 semantics -/

/-- Anchored-at-head match of ``\.\.[/\\]|\.\..%2[fF]`` (rule 1003):
either `..` followed by a slash or backslash, or `..` followed by any
non-newline rune, then `%2` and `f` or `F`. -/
def pat1003At (l : List Char) : Bool :=
  match l with
  | '.' :: '.' :: c :: rest =>
    (c = '/' || c = '\\') ||
      (c ≠ '\n' &&
        match rest with
        | '%' :: '2' :: f :: _ => f = 'f' || f = 'F'
        | _ => false)
  | _ => false

/-- Unanchored search: the pattern matches at some position. -/
def searchAny (p : List Char → Bool) : List Char → Bool
  | [] => p []
  | c :: rest => p (c :: rest) || searchAny p (rest)

/-- `regexp.MatchString` for the rule-1003 pattern. -/
def regexMatch1003 (s : String) : Bool := searchAny pat1003At s.data

/-- RE2 `\s` character class: `[\t\n\f\r ]`. -/
def isSpaceRE2 (c : Char) : Bool :=
  c = ' ' || c = '\t' || c = '\n' || Char.toNat c = 12 || c = '\r'

/-- The command words of the rule-1004 pattern. -/
def cmdWords : List String :=
  ["cat", "ls", "rm", "wget", "curl", "bash", "sh", "cmd", "powershell"]

/-- Anchored-at-head match of ``[;&|\n][\s]*(cat|ls|rm|wget|curl|bash|sh|cmd|powershell)``
(rule 1004).  Since no command word begins with a whitespace rune, the
greedy/backtracking `[\s]*` is equivalent to dropping the maximal
whitespace run. -/
def pat1004At (l : List Char) : Bool :=
  match l with
  | [] => false
  | c :: rest =>
    (c = ';' || c = '&' || c = '|' || c = '\n') &&
      cmdWords.any (fun w => decide (w.data <+: rest.dropWhile isSpaceRE2))

/-- `regexp.MatchString` for the rule-1004 pattern. -/
def regexMatch1004 (s : String) : Bool := searchAny pat1004At s.data

/-- `regexp.Compile`, modelled on the two patterns that occur in the
program (both compile successfully in Go); the oracle is a parameter of
`Compile`/`AddRule` wherever a claim quantifies over arbitrary rules. -/
def goRegexCompile (pat : String) : Option (String → Bool) :=
  if pat = "\\.\\.[/\\\\]|\\.\\..%2[fF]" then some regexMatch1003
  else if pat = "[;&|\\n][\\s]*(cat|ls|rm|wget|curl|bash|sh|cmd|powershell)" then
    some regexMatch1004
  else none

/-! ## package `waf`: the engine (`engine.go`) -/

/-- `waf.Decision` (Go integer enum). -/
inductive Decision where
  | DecisionAllow : Decision
  | DecisionBlock : Decision
  | DecisionLog : Decision
deriving DecidableEq, Repr

export Decision (DecisionAllow DecisionBlock DecisionLog)

/-- `waf.Engine`: the ordered rule set (config and logger carry no
decision-relevant state). -/
structure Engine where
  rules : List Rule

/-- The literal default rule records of `addDefaultRules` (before
compilation). -/
def defaultRules : List Rule :=
  [{ ID := 1001,
     Name := "SQL Injection - Common Patterns",
     Description := "Detects common SQL injection patterns",
     Phase := PhaseRequestBody,
     Operator := OpSQLi,
     Target := "REQUEST_BODY",
     Action := ActionBlock,
     Severity := "critical",
     Enabled := true },
   { ID := 1002,
     Name := "Cross-Site Scripting (XSS)",
     Description := "Detects common XSS patterns",
     Phase := PhaseRequestBody,
     Operator := OpXSS,
     Target := "REQUEST_BODY",
     Action := ActionBlock,
     Severity := "critical",
     Enabled := true },
   { ID := 1003,
     Name := "Path Traversal",
     Description := "Detects path traversal attempts",
     Phase := PhaseRequestURI,
     Operator := OpRegex,
     Pattern := "\\.\\.[/\\\\]|\\.\\..%2[fF]",
     Target := "REQUEST_URI",
     Action := ActionBlock,
     Severity := "high",
     Enabled := true },
   { ID := 1004,
     Name := "Command Injection",
     Description := "Detects command injection patterns",
     Phase := PhaseRequestBody,
     Operator := OpRegex,
     Pattern := "[;&|\\n][\\s]*(cat|ls|rm|wget|curl|bash|sh|cmd|powershell)",
     Target := "REQUEST_BODY",
     Action := ActionBlock,
     Severity := "critical",
     Enabled := true },
   { ID := 1005,
     Name := "Suspicious User-Agent",
     Description := "Blocks requests from suspicious user agents",
     Phase := PhaseRequestHeaders,
     Operator := OpContains,
     Pattern := "BadBot",
     Target := "REQUEST_HEADERS:User-Agent",
     Action := ActionBlock,
     Severity := "medium",
     Enabled := true },
   { ID := 1006,
     Name := "High Entropy Payload",
     Description := "Detects high entropy payloads (potential encoding/obfuscation)",
     Phase := PhaseRequestBody,
     Operator := OpHighEntropy,
     Target := "REQUEST_BODY",
     Action := ActionLog,
     Severity := "medium",
     Enabled := true }]

/-- `addDefaultRules`: each default rule is compiled; rules failing
compilation are skipped with a warning, the rest are appended in order. -/
def addDefaultRules : List Rule :=
  defaultRules.foldl
    (fun acc r =>
      match r.Compile goRegexCompile with
      | none => acc
      | some r' => acc ++ [r'])
    []

/-- `waf.NewEngine`: a fresh engine holding the default rules. -/
def NewEngine : Engine := ⟨addDefaultRules⟩

/-- `(*Engine).AddRule` with the regex oracle `rc`: compile, and append on
success; `none` models the Go error return.  No uniqueness check is
performed. -/
def AddRule (rc : String → Option (String → Bool)) (e : Engine) (r : Rule) :
    Option Engine :=
  match r.Compile rc with
  | none => none
  | some r' => some ⟨e.rules ++ [r']⟩

/-- The request fields read by the engine and proxy.  `Headers` models
`http.Header` (canonical keys, multi-valued); `QueryParams` models the
result of `r.URL.Query()`, whose parsing is performed by the Go standard
library. -/
structure GoRequest where
  Method : String := ""
  RequestURI : String := ""
  Headers : List (String × List String) := []
  QueryParams : List (String × List String) := []
  Body : String := ""
  ContentLength : Int := 0

/-- `(*Engine).checkRule` (engine.go): target extraction and matching for
one rule.  The `REQUEST_BODY` arm of the Go switch returns `false`
without looking at the body (source comment: body checking skipped "for
now"). -/
def checkRule (rule : Rule) (r : GoRequest) : Bool :=
  if !rule.Enabled then false
  else if rule.Target = "REQUEST_URI" then
    let data := r.RequestURI
    data ≠ "" && rule.Match data
  else if rule.Target = "REQUEST_BODY" then false
  else if startsWithStr rule.Target ("REQUEST_HEADERS:") then
    let headerName := trimPre rule.Target ("REQUEST_HEADERS:")
    let data := headerGet r.Headers headerName
    data ≠ "" && rule.Match data
  else if rule.Target = "REQUEST_HEADERS" then
    r.Headers.any (fun kv => kv.2.any (fun v => rule.Match v))
  else if rule.Target = "ARGS" then
    r.QueryParams.any (fun kv => kv.2.any (fun v => rule.Match v))
  else false

/-- The blocked-reason string `fmt.Sprintf("Rule %d: %s", id, name)`. -/
def ruleReason (rule : Rule) : String :=
  "Rule " ++ toString rule.ID ++ ": " ++ rule.Name

/-- One pass of `(*Engine).Check`: iterate the rules in order, skip those
outside the phase, and return on the first matching rule whose action is
`block`.  The three passes of the Go function are syntactic copies of
this loop. -/
def checkPass (r : GoRequest) (ph : RulePhase) : List Rule → Option (Decision × String)
  | [] => none
  | rule :: rest =>
    if rule.Phase = ph then
      if checkRule rule r then
        if rule.Action = ActionBlock then some (DecisionBlock, ruleReason rule)
        else checkPass r ph rest
      else checkPass r ph rest
    else checkPass r ph rest

/-- `(*Engine).Check`: the three passes in the fixed phase order
request-headers, request-URI, request-body; `(Allow, "")` when no pass
blocks. -/
def Check (rules : List Rule) (r : GoRequest) : Decision × String :=
  match checkPass r PhaseRequestHeaders rules with
  | some res => res
  | none =>
    match checkPass r PhaseRequestURI rules with
    | some res => res
    | none =>
      match checkPass r PhaseRequestBody rules with
      | some res => res
      | none => (DecisionAllow, "")

/-! ## package `proxy` (`interceptor.go`, `proxy.go`) -/

/-- `(*RequestInterceptor).InterceptRequest`: when `ContentLength > 0` the
body is read into the interceptor's buffer and the request body replaced
by a fresh reader over the same bytes.  In the pure model the request is
unchanged and the captured buffer is returned. -/
def InterceptRequest (r : GoRequest) : String × GoRequest :=
  if r.ContentLength > 0 then (r.Body, r) else ("", r)

/-- The configuration fields consulted by `handleRequest`. -/
structure Config where
  ProxyTo : String := ""
  Port : Int := 0
  Timeout : Int := 0
  DryRun : Bool := false
  Interactive : Bool := false

/-- `(*Proxy).askUser`: reads one token from standard input; approval on
exactly `a` or `A`. -/
def askUser (input : String) : Bool := input = "a" || input = "A"

/-- An upstream origin response (status and body), as streamed back by the
reverse proxy. -/
structure HTTPResponse where
  status : Nat
  body : String
deriving DecidableEq, Repr

/-- The observable outcome of `handleRequest`: the client-visible status
and body, and whether the upstream origin was contacted. -/
structure ProxyOutcome where
  status : Nat
  body : String
  upstreamCalled : Bool
deriving DecidableEq, Repr

/-- `(*Proxy).handleRequest` (proxy.go): intercept the body, evaluate the
WAF, then apply the mode policy.  On a Block decision: interactive mode
prompts the operator (`input`); otherwise, unless dry-run, a 403
`Forbidden` response is written and no upstream call is made.  All other
paths forward to the origin (`upstream` is the origin's response). -/
def handleRequest (cfg : Config) (e : Engine) (r : GoRequest) (input : String)
    (upstream : HTTPResponse) : ProxyOutcome :=
  let r' := (InterceptRequest r).2
  let decision := Check e.rules r'
  if decision.1 = DecisionBlock then
    if cfg.Interactive then
      if !askUser input then ⟨403, "Forbidden", false⟩
      else ⟨upstream.status, upstream.body, true⟩
    else if !cfg.DryRun then ⟨403, "Forbidden", false⟩
    else ⟨upstream.status, upstream.body, true⟩
  else ⟨upstream.status, upstream.body, true⟩

/-- Enforce mode: neither dry-run nor interactive. -/
def enforceCfg : Config := {}

/-- Dry-run mode. -/
def dryRunCfg : Config := { DryRun := true }

/-- Interactive mode. -/
def interactiveCfg : Config := { Interactive := true }

/-- Spec-side view of one evaluation pass: the rules of one phase, in
insertion order. -/
def phaseRules (rules : List Rule) (ph : RulePhase) : List Rule :=
  rules.filter (fun rule => decide (rule.Phase = ph))

/-- Spec-side hit predicate: target extraction and matcher succeed
(`checkRule`) and the action is `block`. -/
def blockHit (r : GoRequest) (rule : Rule) : Bool :=
  checkRule rule r && decide (rule.Action = ActionBlock)

/-- A `POST` request carrying an SQL-injection payload in its buffered
body (concrete input for the `REQUEST_BODY` extraction claim). -/
def c1Req : GoRequest :=
  { Method := "POST"
    RequestURI := "/login"
    Headers := [("Content-Type", ["application/x-www-form-urlencoded"])]
    Body := "username=admin&password=' OR '1'='1"
    ContentLength := 35 }

/-- The scenario-S1 request `GET /?id=1' OR '1'='1`. -/
def c2Req : GoRequest :=
  { Method := "GET"
    RequestURI := "/?id=1' OR '1'='1"
    QueryParams := [("id", ["1' OR '1'='1"])] }

/-- A request whose `User-Agent` header triggers default rule 1005. -/
def badBotReq : GoRequest :=
  { Method := "GET"
    RequestURI := "/"
    Headers := [("User-Agent", ["xBadBoty"])] }

/-- A headers-phase block rule matching any request URI containing `x`
(concrete input for phase-order witnesses). -/
def wRule : Rule :=
  { ID := 7
    Name := "W"
    Phase := PhaseRequestHeaders
    Operator := OpContains
    Pattern := "x"
    Target := "REQUEST_URI"
    Action := ActionBlock
    Enabled := true }

/-- A request whose URI contains `x`. -/
def wReq : GoRequest := { RequestURI := "xyz" }

/-! ## package `analysis`: the efficacy analyser (`efficacy.go`) -/

/-- An event as seen by the analyser: a property bag
(`map[string]interface{}`).  A field is `none` when the key is missing or
its value fails the Go type assertion performed by the analyser. -/
structure GoEvent where
  blocked : Option Bool := none
  rule_id : Option String := none
  rule_name : Option String := none
  response_time_ms : Option ℚ := none
  reason : Option String := none
  source_ip : Option String := none
  url : Option String := none
deriving DecidableEq, Repr

/-- `analysis.RuleMetrics`.  Go `float64` fields are idealised as exact
rationals.  The `TopBlockedIPs`/`TopBlockedURLs` maps are omitted: they
are produced through Go's unstable `sort.Slice` and no claim concerns
them. -/
structure RuleMetrics where
  RuleID : String := ""
  RuleName : String := ""
  TotalTriggers : Int := 0
  TruePositives : Int := 0
  FalsePositives : Int := 0
  TrueNegatives : Int := 0
  FalseNegatives : Int := 0
  Precision : ℚ := 0
  Recall : ℚ := 0
  F1Score : ℚ := 0
  Specificity : ℚ := 0
  Accuracy : ℚ := 0
  AvgLatencyMs : ℚ := 0
  MaxLatencyMs : ℚ := 0
  MinLatencyMs : ℚ := 0
  BlockRate : ℚ := 0
  AttackPatterns : List String := []
  Recommendations : List String := []
deriving DecidableEq, Repr

/-- Decimal rendering standing in for Go's `%.1f` / `%.2f` (`digits`
fractional digits); the digit strings are not load-bearing for any
claim. -/
def fmtFixed (digits : Nat) (q : ℚ) : String :=
  let scaled : Int := (q * ((10 : ℚ) ^ digits)).floor
  toString (scaled / ((10 : Int) ^ digits)) ++ "." ++ toString (scaled.natAbs % 10 ^ digits)

/-- `(*EfficacyAnalyzer).calculateRuleMetrics`: one pass over the rule's
events.  An event counts as a true positive when its `blocked` field is
the boolean `true`, as a false positive otherwise; latency statistics come
from the `response_time_ms` fields that are present (the Go `MaxFloat64`
sentinel for the minimum is modelled by an `Option`); `AttackPatterns`
collects distinct non-empty reasons (Go map iteration order is
unspecified, modelled as first-occurrence order); `RuleName` keeps the
last name seen. -/
def calculateRuleMetrics (ruleID : String) (events : List GoEvent) : RuleMetrics :=
  let tp : Int := ((events.filter (fun e => decide (e.blocked = some true))).length : Int)
  let fp : Int := ((events.filter (fun e => decide (¬ e.blocked = some true))).length : Int)
  let latencies := events.filterMap (fun e => e.response_time_ms)
  let totalLatency : ℚ := latencies.sum
  let maxLatency : ℚ := latencies.foldl max 0
  let minLat : Option ℚ := latencies.foldl
    (fun acc x => match acc with | none => some x | some m => some (min m x)) none
  let fn : Int := 0
  let precisionV : ℚ := if tp + fp > 0 then (tp : ℚ) / (((tp + fp : Int)) : ℚ) else 0
  let recallV : ℚ := if tp + fn > 0 then (tp : ℚ) / (((tp + fn : Int)) : ℚ) else 0
  let f1 : ℚ :=
    if precisionV + recallV > 0 then 2 * (precisionV * recallV) / (precisionV + recallV) else 0
  { RuleID := ruleID
    RuleName := events.foldl (fun acc e => match e.rule_name with | some n => n | none => acc) ""
    TotalTriggers := (events.length : Int)
    TruePositives := tp
    FalsePositives := fp
    FalseNegatives := fn
    Precision := precisionV
    Recall := recallV
    F1Score := f1
    AvgLatencyMs := if events.length > 0 then totalLatency / (events.length : ℚ) else 0
    MaxLatencyMs := if events.length > 0 then maxLatency else 0
    MinLatencyMs :=
      match minLat with
      | some m => if events.length > 0 then m else 0
      | none => 0
    BlockRate := if (events.length : Int) > 0 then (tp : ℚ) / (events.length : ℚ) * 100 else 0
    AttackPatterns :=
      ((events.filterMap (fun e => e.reason)).filter (fun s => decide (s ≠ ""))).dedup
    Recommendations := [] }

/-- `(*EfficacyAnalyzer).generateRecommendations`: the five deterministic
threshold rules, in source order. -/
def generateRecommendations (m : RuleMetrics) : List String :=
  (if m.FalsePositives > 0 ∧ m.Precision < (0.8 : ℚ) then
    ["High false positive rate (" ++ fmtFixed 1 ((1 - m.Precision) * 100) ++
      "%). Consider tuning rule sensitivity or adding whitelists."]
  else []) ++
  (if m.Recall < (0.7 : ℚ) ∧ m.Recall > 0 then
    ["Low recall rate (" ++ fmtFixed 1 (m.Recall * 100) ++
      "%). Rule may be missing attack variants. Consider expanding patterns."]
  else []) ++
  (if m.AvgLatencyMs > 5 then
    ["High average latency (" ++ fmtFixed 2 m.AvgLatencyMs ++
      "ms). Consider optimizing rule patterns for better performance."]
  else []) ++
  (if m.BlockRate < 50 ∧ m.TotalTriggers > 100 then
    ["Low block rate suggests many false positives. Review and refine rule patterns."]
  else []) ++
  (if m.BlockRate > 95 ∧ m.TotalTriggers > 100 then
    ["Very high block rate. Verify this is intentional and not over-blocking legitimate traffic."]
  else [])

/-- The events `AnalyzeRules` attributes to `ruleID`: those whose
`rule_id` string is present and equals it (events with a missing,
non-string or empty `rule_id` are attributed to no rule). -/
def attributedEvents (events : List GoEvent) (ruleID : String) : List GoEvent :=
  events.filter (fun e => decide (e.rule_id = some ruleID))

/-- `(*EfficacyAnalyzer).AnalyzeRules`, viewed at one rule id: the metrics
map holds an entry for `ruleID` exactly when some event carries that
non-empty id; the entry is `calculateRuleMetrics` on the attributed events
with the recommendations filled in. -/
def AnalyzeRules (events : List GoEvent) (ruleID : String) : Option RuleMetrics :=
  if ruleID = "" then none
  else
    let evs := attributedEvents events ruleID
    if evs.isEmpty then none
    else
      let m := calculateRuleMetrics ruleID evs
      some { m with Recommendations := generateRecommendations m }

/-- A custom rule reusing the default identifier 1001 (concrete input for
the identifier-uniqueness claim). -/
def dupRule : Rule :=
  { ID := 1001
    Name := "Custom duplicate"
    Phase := PhaseRequestURI
    Operator := OpContains
    Pattern := "zz"
    Target := "REQUEST_URI"
    Action := ActionBlock
    Severity := "low"
    Enabled := true }

/-- A custom rule with a fresh identifier. -/
def freshRule : Rule :=
  { ID := 2000
    Name := "Custom fresh"
    Phase := PhaseRequestURI
    Operator := OpContains
    Pattern := "zz"
    Target := "REQUEST_URI"
    Action := ActionBlock
    Severity := "low"
    Enabled := true }

/-- Five events for rule 1001, four blocked and one not (scenario S5). -/
def c8Events : List GoEvent :=
  [{ blocked := some true, rule_id := some "1001", rule_name := some "SQLi" },
   { blocked := some true, rule_id := some "1001", rule_name := some "SQLi" },
   { blocked := some true, rule_id := some "1001", rule_name := some "SQLi" },
   { blocked := some true, rule_id := some "1001", rule_name := some "SQLi" },
   { blocked := some false, rule_id := some "1001", rule_name := some "SQLi" }]

/-- A mixed batch: two events attributed to rule 1001 (one blocked, one
not) and one attributed to rule 1002. -/
def c7Events : List GoEvent :=
  [{ blocked := some true, rule_id := some "1001" },
   { blocked := some false, rule_id := some "1001" },
   { blocked := some true, rule_id := some "1002" }]

/-! # Theorems -/

/-- C10: for every rule whose operator is `regex` or `notregex` but whose
compiled regex is absent (`nil`), `Rule.Match` returns `false` on every
input — in particular a `notregex` rule in this state never matches, even
though its pattern fails to match the input. -/
theorem C10_nil_regex_never_matches (r : Rule) (data : String)
    (hop : r.Operator = OpRegex ∨ r.Operator = OpNotRegex) (hre : r.regex = none) :
    r.Match data = false := by
  by_cases hE : r.Enabled <;>
    rcases hop with h | h <;>
      simp [Rule.Match, h, hre, hE, OpRegex, OpNotRegex, OpContains, OpNotContains]

/-- Witness for C10 at a concrete uncompiled `notregex` rule. -/
theorem C10_witness :
    Rule.Match { Operator := OpNotRegex, Pattern := "x", Enabled := true } "abc" = false :=
  C10_nil_regex_never_matches _ _ (Or.inr rfl) rfl

/-- C1: contrary to the claim, the `REQUEST_BODY` arm of `checkRule` is an
unconditional non-match: every rule targeting `REQUEST_BODY` extracts
nothing and fails, so the default SQLi block rule does not fire even on a
request whose buffered body contains an SQLi payload (`detectSQLi` holds
on the body and the interceptor captured it), and `Check` allows the
request. -/
theorem C1_request_body_never_checked :
    (∀ (rule : Rule) (r : GoRequest),
        rule.Target = "REQUEST_BODY" → checkRule rule r = false)
    ∧ detectSQLi c1Req.Body = true
    ∧ (InterceptRequest c1Req).1 = c1Req.Body
    ∧ Check NewEngine.rules c1Req = (DecisionAllow, "") := by
  refine ⟨?_, by decide, by decide, by decide⟩
  intro rule r h
  by_cases hE : rule.Enabled <;> simp [checkRule, h, hE]

/-- Witness for C1: the engine's default `REQUEST_BODY` SQLi rule (1001)
fails on the payload-carrying request. -/
theorem C1_witness :
    checkRule
      { ID := 1001
        Name := "SQL Injection - Common Patterns"
        Phase := PhaseRequestBody
        Operator := OpSQLi
        Target := "REQUEST_BODY"
        Action := ActionBlock
        Severity := "critical"
        Enabled := true } c1Req = false :=
  C1_request_body_never_checked.1 _ _ rfl

/-- C2: contrary to the claim, the request `GET /?id=1' OR '1'='1` is not
blocked under the default rule set: `Check` returns `(Allow, "")` (rule
1001 targets `REQUEST_BODY`, which `checkRule` never inspects, and the
GET request has an empty body anyway), so enforce mode forwards the
request upstream instead of returning 403 `Forbidden` — although the SQLi
matcher itself recognises the URI payload. -/
theorem C2_sqli_get_not_blocked :
    Check NewEngine.rules c2Req = (DecisionAllow, "")
    ∧ handleRequest enforceCfg NewEngine c2Req "" ⟨200, "upstream"⟩ =
        ⟨200, "upstream", true⟩
    ∧ detectSQLi c2Req.RequestURI = true := by
  exact ⟨by decide, by decide, by decide⟩

/-- One evaluation pass returns the first phase-matching rule that hits
with a `block` action, as a `find?` over the phase-filtered rule list. -/
theorem checkPass_eq_find (r : GoRequest) (ph : RulePhase) (rules : List Rule) :
    checkPass r ph rules =
      ((phaseRules rules ph).find? (blockHit r)).map
        (fun rule => (DecisionBlock, ruleReason rule)) := by
  induction rules with
  | nil => rfl
  | cons rule rest ih =>
    by_cases h1 : rule.Phase = ph
    · by_cases h2 : checkRule rule r
      · by_cases h3 : rule.Action = ActionBlock
        · simp [checkPass, phaseRules, blockHit, h1, h2, h3]
        · simpa [checkPass, phaseRules, blockHit, h1, h2, h3] using ih
      · simpa [checkPass, phaseRules, blockHit, h1, h2] using ih
    · simpa [checkPass, phaseRules, blockHit, h1] using ih

/-- C3: `Check` evaluates the three phases in the fixed order
request-headers, request-URI, request-body, rules in insertion order
within each: the result is `(Block, "Rule <id>: <name>")` for the first
rule in that concatenated order whose extraction-and-match succeeds with
action `block`, and `(Allow, "")` otherwise; consequently a hit in the
headers or URI phase forces a Block whose reason comes from those phases,
pre-empting any body-phase rule. -/
theorem C3_phase_ordered_evaluation (rules : List Rule) (r : GoRequest) :
    (Check rules r =
      match
        (phaseRules rules PhaseRequestHeaders ++ phaseRules rules PhaseRequestURI ++
          phaseRules rules PhaseRequestBody).find? (blockHit r) with
      | some rule => (DecisionBlock, ruleReason rule)
      | none => (DecisionAllow, ""))
    ∧ (∀ rule ∈ phaseRules rules PhaseRequestHeaders ++ phaseRules rules PhaseRequestURI,
        blockHit r rule = true →
          ∃ rule0 ∈ phaseRules rules PhaseRequestHeaders ++ phaseRules rules PhaseRequestURI,
            Check rules r = (DecisionBlock, ruleReason rule0)) := by
  have hmain :
      Check rules r =
        match
          (phaseRules rules PhaseRequestHeaders ++ phaseRules rules PhaseRequestURI ++
            phaseRules rules PhaseRequestBody).find? (blockHit r) with
        | some rule => (DecisionBlock, ruleReason rule)
        | none => (DecisionAllow, "") := by
    unfold Check
    rw [checkPass_eq_find r PhaseRequestHeaders rules,
      checkPass_eq_find r PhaseRequestURI rules,
      checkPass_eq_find r PhaseRequestBody rules]
    rcases hf1 : (phaseRules rules PhaseRequestHeaders).find? (blockHit r) with _ | rule1
    · rcases hf2 : (phaseRules rules PhaseRequestURI).find? (blockHit r) with _ | rule2
      · rcases hf3 : (phaseRules rules PhaseRequestBody).find? (blockHit r) with _ | rule3 <;>
          simp [List.find?_append, hf1, hf2, hf3]
      · simp [List.find?_append, hf1, hf2]
    · simp [List.find?_append, hf1]
  refine ⟨hmain, ?_⟩
  intro rule hmem hhit
  rcases hf :
      (phaseRules rules PhaseRequestHeaders ++ phaseRules rules PhaseRequestURI).find?
        (blockHit r) with _ | rule0
  · exact absurd (List.find?_eq_none.mp hf rule hmem hhit) (by simp)
  · refine ⟨rule0, List.mem_of_find?_eq_some hf, ?_⟩
    rw [hmain, List.find?_append, hf]
    rfl

/-- Witness for C3: a headers-phase hit at a concrete rule and request
yields the corresponding Block result. -/
theorem C3_witness : Check [wRule] wReq = (DecisionBlock, ruleReason wRule) := by
  obtain ⟨rule0, hmem, heq⟩ :=
    (C3_phase_ordered_evaluation [wRule] wReq).2 wRule
      (by
        rw [show phaseRules [wRule] PhaseRequestHeaders ++
            phaseRules [wRule] PhaseRequestURI = [wRule] from rfl]
        exact List.mem_singleton_self _)
      (by decide)
  have : rule0 = wRule := by
    have h :
        phaseRules [wRule] PhaseRequestHeaders ++ phaseRules [wRule] PhaseRequestURI =
          [wRule] := rfl
    rw [h] at hmem
    simpa using hmem
  rw [heq, this]

/-- C4: on a Block decision, enforce mode answers 403 `Forbidden` with no
upstream call; interactive mode prompts the operator and admits on `a` or
`A`, answering 403 `Forbidden` otherwise; dry-run mode forwards every
request regardless of the decision. -/
theorem C4_mode_policy (e : Engine) (r : GoRequest) (input : String)
    (up : HTTPResponse) :
    ((Check e.rules r).1 = DecisionBlock →
        handleRequest enforceCfg e r input up = ⟨403, "Forbidden", false⟩
        ∧ handleRequest interactiveCfg e r input up =
            (if input = "a" ∨ input = "A"
              then ⟨up.status, up.body, true⟩
              else ⟨403, "Forbidden", false⟩))
    ∧ handleRequest dryRunCfg e r input up = ⟨up.status, up.body, true⟩ := by
  have hIR : (InterceptRequest r).2 = r := by
    unfold InterceptRequest
    split <;> rfl
  constructor
  · intro hB
    constructor
    · simp [handleRequest, hIR, hB, enforceCfg]
    · by_cases ha : input = "a" ∨ input = "A"
      · have : askUser input = true := by
          rcases ha with h | h <;> simp [askUser, h]
        simp [handleRequest, hIR, hB, interactiveCfg, this, ha]
      · have : askUser input = false := by
          simp only [askUser]
          rcases not_or.mp ha with ⟨h1, h2⟩
          simp [h1, h2]
        simp [handleRequest, hIR, hB, interactiveCfg, this, ha]
  · by_cases hB : (Check e.rules r).1 = DecisionBlock <;>
      simp [handleRequest, hIR, hB, dryRunCfg]

/-- Witness for C4: the BadBot request is blocked by default rule 1005 and
enforce mode answers 403 without an upstream call. -/
theorem C4_witness :
    handleRequest enforceCfg NewEngine badBotReq "d" ⟨200, "ok"⟩ =
      ⟨403, "Forbidden", false⟩ :=
  ((C4_mode_policy NewEngine badBotReq "d" ⟨200, "ok"⟩).1 (by decide)).1

/-- `Char.ofNat` round-trips on valid (pre-surrogate) code points. -/
theorem toNat_ofNat_valid (n : Nat) (h : n < 55296) : (Char.ofNat n).toNat = n := by
  unfold Char.ofNat
  rw [dif_pos (Or.inl h)]
  rfl

/-- Upper-casing collapses a prior lower-casing (ASCII). -/
theorem goUpperChar_goLowerChar (c : Char) :
    goUpperChar (goLowerChar c) = goUpperChar c := by
  unfold goUpperChar goLowerChar
  by_cases h : 65 ≤ c.toNat ∧ c.toNat ≤ 90
  · rw [if_pos h]
    have hv : (Char.ofNat (c.toNat + 32)).toNat = c.toNat + 32 :=
      toNat_ofNat_valid _ (by omega)
    rw [if_pos (by rw [hv]; omega), if_neg (by omega), hv]
    rw [show c.toNat + 32 - 32 = c.toNat from by omega, Char.ofNat_toNat]
  · rw [if_neg h]

/-- Lower-casing collapses a prior upper-casing (ASCII). -/
theorem goLowerChar_goUpperChar (c : Char) :
    goLowerChar (goUpperChar c) = goLowerChar c := by
  unfold goUpperChar goLowerChar
  by_cases h : 97 ≤ c.toNat ∧ c.toNat ≤ 122
  · rw [if_pos h]
    have hv : (Char.ofNat (c.toNat - 32)).toNat = c.toNat - 32 :=
      toNat_ofNat_valid _ (by omega)
    rw [if_pos (by rw [hv]; omega), if_neg (by omega), hv]
    rw [show c.toNat - 32 + 32 = c.toNat from by omega, Char.ofNat_toNat]
  · rw [if_neg h]

/-- Containment after lower-casing both sides coincides with containment
after upper-casing both sides. -/
theorem map_lower_infix_iff (l1 l2 : List Char) :
    l1.map goLowerChar <:+: l2.map goLowerChar ↔
      l1.map goUpperChar <:+: l2.map goUpperChar := by
  have e1 : ∀ l : List Char, (l.map goLowerChar).map goUpperChar = l.map goUpperChar := by
    intro l
    rw [List.map_map]
    exact List.map_congr_left (fun a _ => goUpperChar_goLowerChar a)
  have e2 : ∀ l : List Char, (l.map goUpperChar).map goLowerChar = l.map goLowerChar := by
    intro l
    rw [List.map_map]
    exact List.map_congr_left (fun a _ => goLowerChar_goUpperChar a)
  constructor <;> intro h
  · have h2 := h.map goUpperChar
    rwa [e1, e1] at h2
  · have h2 := h.map goLowerChar
    rwa [e2, e2] at h2

/-- C5: `detectSQLi` holds exactly when the input case-insensitively
contains some term of the fixed SQLi token list, and `detectXSS` exactly
when it case-insensitively contains some term of the fixed XSS token
list; the token lists contain precisely the advertised entries. -/
theorem C5_sqli_xss_token_lists :
    (∀ s : String, detectSQLi s = true ↔ ∃ pat ∈ sqlPatterns, ciContains s pat)
    ∧ (∀ s : String, detectXSS s = true ↔ ∃ pat ∈ xssPatterns, ciContains s pat)
    ∧ (∀ t ∈ (["' OR '1'='1", "' OR 1=1", "'; DROP TABLE", "UNION SELECT",
        "admin' --", "' /*", "*/ OR /*", "xp_", "sp_"] : List String), t ∈ sqlPatterns)
    ∧ xssPatterns = ["<script", "javascript:", "onerror=", "onload=", "onclick=",
        "onmouseover=", "<iframe", "<object", "<embed", "<img", "<svg"] := by
  have hinv : ∀ pat ∈ xssPatterns, pat.data.map goLowerChar = pat.data := by decide
  refine ⟨?_, ?_, by decide, rfl⟩
  · intro s
    simp [detectSQLi, List.any_eq_true, containsStr, ciContains, goToUpper]
  · intro s
    simp only [detectXSS, List.any_eq_true, containsStr, decide_eq_true_eq]
    constructor
    · rintro ⟨pat, hmem, h⟩
      refine ⟨pat, hmem, ?_⟩
      have h' : pat.data.map goLowerChar <:+: s.data.map goLowerChar := by
        rwa [hinv pat hmem]
      exact (map_lower_infix_iff pat.data s.data).mp h'
    · rintro ⟨pat, hmem, h⟩
      refine ⟨pat, hmem, ?_⟩
      have h' := (map_lower_infix_iff pat.data s.data).mpr h
      rwa [hinv pat hmem] at h'

/-- Witness for C5 at a concrete payload and token. -/
theorem C5_witness :
    detectSQLi "id=1' or '1'='1" = true ∧ "' OR '1'='1" ∈ sqlPatterns :=
  ⟨(C5_sqli_xss_token_lists.1 _).mpr
      ⟨"' OR '1'='1", by decide, by unfold ciContains; decide⟩,
    C5_sqli_xss_token_lists.2.2.1 _ (by decide)⟩

/-- Compilation never changes a rule's identifier. -/
theorem Compile_preserves_ID (rc : String → Option (String → Bool)) (r r' : Rule)
    (h : r.Compile rc = some r') : r'.ID = r.ID := by
  unfold Rule.Compile at h
  split at h
  · cases hm : rc r.Pattern <;> rw [hm] at h
    · exact absurd h (by simp)
    · cases h
      rfl
  · cases h
    rfl

/-- C9 counterexample: `AddRule` admits a rule whose identifier duplicates
default rule 1001, leaving two rules with the same identifier in the
engine. -/
theorem C9_counterexample :
    (AddRule goRegexCompile NewEngine dupRule).map (fun e' => e'.rules.map Rule.ID) =
      some [1001, 1002, 1003, 1004, 1005, 1006, 1001]
    ∧ ¬ ([1001, 1002, 1003, 1004, 1005, 1006, 1001] : List Int).Nodup := by
  exact ⟨by decide, by decide⟩

/-- C9 (amended): the default rules have pairwise-distinct identifiers;
`AddRule` itself performs no uniqueness check, so uniqueness is preserved
exactly under admissions whose identifier is fresh. -/
theorem C9_default_ids_unique_addRule_fresh :
    (NewEngine.rules.map Rule.ID).Nodup
    ∧ (∀ (rc : String → Option (String → Bool)) (e : Engine) (r : Rule) (e' : Engine),
        AddRule rc e r = some e' →
        (e.rules.map Rule.ID).Nodup →
        r.ID ∉ e.rules.map Rule.ID →
        (e'.rules.map Rule.ID).Nodup) := by
  refine ⟨by decide, ?_⟩
  intro rc e r e' hadd huniq hfresh
  unfold AddRule at hadd
  cases hc : r.Compile rc <;> rw [hc] at hadd
  · exact absurd hadd (by simp)
  · rename_i r'
    cases hadd
    have hid : r'.ID = r.ID := Compile_preserves_ID rc r r' hc
    simp only [List.map_append, List.map_cons, List.map_nil]
    rw [hid]
    simp [List.nodup_append, huniq, hfresh]

/-- Witness for the amended C9: admitting the fresh-id rule preserves
uniqueness. -/
theorem C9_witness :
    ((Engine.mk (addDefaultRules ++ [freshRule])).rules.map Rule.ID).Nodup :=
  C9_default_ids_unique_addRule_fresh.2 goRegexCompile NewEngine freshRule _ rfl
    (by decide) (by decide)

/-- True and false positives of one rule's batch partition its length. -/
theorem crm_total (ruleID : String) (events : List GoEvent) :
    (calculateRuleMetrics ruleID events).TruePositives +
      (calculateRuleMetrics ruleID events).FalsePositives =
        (calculateRuleMetrics ruleID events).TotalTriggers := by
  show ((events.filter (fun e => decide (e.blocked = some true))).length : Int) +
      ((events.filter (fun e => decide (¬ e.blocked = some true))).length : Int) =
        (events.length : Int)
  have h := List.length_eq_length_filter_add (l := events)
    (fun e => decide (e.blocked = some true))
  simp only [decide_not] at *
  omega

/-- On a non-empty batch the precision denominator is positive and the
`if` guard in `calculateRuleMetrics` resolves to the quotient. -/
theorem crm_precision (ruleID : String) (events : List GoEvent) (hne : events ≠ []) :
    (calculateRuleMetrics ruleID events).Precision =
      ((calculateRuleMetrics ruleID events).TruePositives : ℚ) /
        (((calculateRuleMetrics ruleID events).TruePositives +
          (calculateRuleMetrics ruleID events).FalsePositives : Int) : ℚ) := by
  have htot := crm_total ruleID events
  have hlen : 0 < events.length := List.length_pos.mpr hne
  show (if ((events.filter (fun e => decide (e.blocked = some true))).length : Int) +
      ((events.filter (fun e => decide (¬ e.blocked = some true))).length : Int) > 0 then
      (((events.filter (fun e => decide (e.blocked = some true))).length : Int) : ℚ) /
        ((((events.filter (fun e => decide (e.blocked = some true))).length : Int) +
          ((events.filter (fun e => decide (¬ e.blocked = some true))).length : Int) : Int) : ℚ)
    else 0) = _
  rw [if_pos]
  · rfl
  · have heq : ((events.filter (fun e => decide (e.blocked = some true))).length : Int) +
        ((events.filter (fun e => decide (¬ e.blocked = some true))).length : Int) =
          (events.length : Int) := htot
    omega

/-- C7: on the non-empty batch attributed to a rule (events carrying that
non-empty rule id), an event is a true positive exactly when its blocked
flag is `true` and a false positive otherwise, so TP + FP equals the
total-triggers count; precision is TP / (TP + FP), and 0 when the
denominator is 0; `AnalyzeRules` registers exactly these metrics for the
rule. -/
theorem C7_tp_fp_partition (ruleID : String) (events : List GoEvent)
    (hid : ruleID ≠ "") (hne : attributedEvents events ruleID ≠ []) :
    (calculateRuleMetrics ruleID (attributedEvents events ruleID)).TruePositives =
        (((attributedEvents events ruleID).filter
          (fun e => decide (e.blocked = some true))).length : Int)
    ∧ (calculateRuleMetrics ruleID (attributedEvents events ruleID)).FalsePositives =
        (((attributedEvents events ruleID).filter
          (fun e => decide (¬ e.blocked = some true))).length : Int)
    ∧ (calculateRuleMetrics ruleID (attributedEvents events ruleID)).TruePositives +
        (calculateRuleMetrics ruleID (attributedEvents events ruleID)).FalsePositives =
          (calculateRuleMetrics ruleID (attributedEvents events ruleID)).TotalTriggers
    ∧ (calculateRuleMetrics ruleID (attributedEvents events ruleID)).TotalTriggers =
        ((attributedEvents events ruleID).length : Int)
    ∧ (calculateRuleMetrics ruleID (attributedEvents events ruleID)).Precision =
        ((calculateRuleMetrics ruleID (attributedEvents events ruleID)).TruePositives : ℚ) /
          (((calculateRuleMetrics ruleID (attributedEvents events ruleID)).TruePositives +
            (calculateRuleMetrics ruleID (attributedEvents events ruleID)).FalsePositives :
              Int) : ℚ)
    ∧ AnalyzeRules events ruleID =
        some { calculateRuleMetrics ruleID (attributedEvents events ruleID) with
          Recommendations :=
            generateRecommendations
              (calculateRuleMetrics ruleID (attributedEvents events ruleID)) }
    ∧ (calculateRuleMetrics ruleID []).Precision = 0 := by
  refine ⟨rfl, rfl, crm_total _ _, rfl, crm_precision _ _ hne, ?_, rfl⟩
  have hempty : (attributedEvents events ruleID).isEmpty = false := by
    simpa [List.isEmpty_iff] using hne
  simp [AnalyzeRules, hid, hempty]

/-- Witness for C7 on the concrete mixed batch. -/
theorem C7_witness :
    (calculateRuleMetrics "1001" (attributedEvents c7Events "1001")).TruePositives +
      (calculateRuleMetrics "1001" (attributedEvents c7Events "1001")).FalsePositives =
        (calculateRuleMetrics "1001" (attributedEvents c7Events "1001")).TotalTriggers :=
  (C7_tp_fp_partition "1001" c7Events (by decide) (by decide)).2.2.1

/-- C8: the "High false positive rate" recommendation is emitted exactly
when FP > 0 and precision is strictly below 0.8; on the five-event batch
for rule 1001 with four blocked and one not, TP = 4, FP = 1, precision is
exactly 0.8, the block rate is exactly 80, and no recommendation is
emitted. -/
theorem C8_high_fp_recommendation :
    (∀ m : RuleMetrics,
      (∃ msg ∈ generateRecommendations m,
          ("High false positive rate (").data <+: msg.data)
        ↔ (m.FalsePositives > 0 ∧ m.Precision < (0.8 : ℚ)))
    ∧ (calculateRuleMetrics "1001" (attributedEvents c8Events "1001")).TruePositives = 4
    ∧ (calculateRuleMetrics "1001" (attributedEvents c8Events "1001")).FalsePositives = 1
    ∧ (calculateRuleMetrics "1001" (attributedEvents c8Events "1001")).Precision = (0.8 : ℚ)
    ∧ (calculateRuleMetrics "1001" (attributedEvents c8Events "1001")).BlockRate = 80
    ∧ generateRecommendations
        (calculateRuleMetrics "1001" (attributedEvents c8Events "1001")) = [] := by
  have hprec : (calculateRuleMetrics "1001" (attributedEvents c8Events "1001")).Precision =
      (((4 : Int) : ℚ) / ((5 : Int) : ℚ)) := rfl
  have hbr : (calculateRuleMetrics "1001" (attributedEvents c8Events "1001")).BlockRate =
      (((4 : Int) : ℚ) / ((5 : Nat) : ℚ) * 100) := rfl
  have hrecall : (calculateRuleMetrics "1001" (attributedEvents c8Events "1001")).Recall =
      (((4 : Int) : ℚ) / ((4 : Int) : ℚ)) := rfl
  have havg : (calculateRuleMetrics "1001" (attributedEvents c8Events "1001")).AvgLatencyMs =
      ((0 : ℚ) / ((5 : Nat) : ℚ)) := rfl
  have hempty : generateRecommendations
      (calculateRuleMetrics "1001" (attributedEvents c8Events "1001")) = [] := by
    unfold generateRecommendations
    rw [if_neg, if_neg, if_neg, if_neg, if_neg]
    · simp
    · rw [hbr]
      norm_num
    · rw [hbr]
      norm_num
    · rw [havg]
      norm_num
    · rw [hrecall]
      norm_num
    · rw [hprec]
      intro hcontra
      have := hcontra.2
      norm_num at this
  refine ⟨?_, by decide, by decide, by rw [hprec]; norm_num, by rw [hbr]; norm_num, hempty⟩
  intro m
  constructor
  · rintro ⟨msg, hmem, hpre⟩
    by_contra hcond
    unfold generateRecommendations at hmem
    rw [if_neg hcond] at hmem
    simp only [List.nil_append, List.mem_append] at hmem
    rcases hmem with ((hB | hC) | hD) | hE
    · by_cases h2 : m.Recall < (0.7 : ℚ) ∧ m.Recall > 0
      · rw [if_pos h2] at hB
        simp only [List.mem_singleton] at hB
        subst hB
        simp only [String.data_append, List.append_assoc] at hpre
        rcases List.prefix_or_prefix_of_prefix hpre (List.prefix_append _ _) with h | h
        · exact absurd h (by decide)
        · exact absurd h (by decide)
      · rw [if_neg h2] at hB
        exact absurd hB (List.not_mem_nil _)
    · by_cases h3 : m.AvgLatencyMs > 5
      · rw [if_pos h3] at hC
        simp only [List.mem_singleton] at hC
        subst hC
        simp only [String.data_append, List.append_assoc] at hpre
        rcases List.prefix_or_prefix_of_prefix hpre (List.prefix_append _ _) with h | h
        · exact absurd h (by decide)
        · exact absurd h (by decide)
      · rw [if_neg h3] at hC
        exact absurd hC (List.not_mem_nil _)
    · by_cases h4 : m.BlockRate < 50 ∧ m.TotalTriggers > 100
      · rw [if_pos h4] at hD
        simp only [List.mem_singleton] at hD
        subst hD
        exact absurd hpre (by decide)
      · rw [if_neg h4] at hD
        exact absurd hD (List.not_mem_nil _)
    · by_cases h5 : m.BlockRate > 95 ∧ m.TotalTriggers > 100
      · rw [if_pos h5] at hE
        simp only [List.mem_singleton] at hE
        subst hE
        exact absurd hpre (by decide)
      · rw [if_neg h5] at hE
        exact absurd hE (List.not_mem_nil _)
  · rintro ⟨h1, h2⟩
    refine ⟨"High false positive rate (" ++ fmtFixed 1 ((1 - m.Precision) * 100) ++
        "%). Consider tuning rule sensitivity or adding whitelists.", ?_, ?_⟩
    · unfold generateRecommendations
      rw [if_pos ⟨h1, h2⟩]
      simp only [List.mem_append, List.mem_singleton]
      exact Or.inl (Or.inl (Or.inl (Or.inl trivial)))
    · simp only [String.data_append, List.append_assoc]
      exact List.prefix_append _ _

/-! ## Entropy: real-valued characterisation and bounds -/

theorem utf8Size_eq_one {c : Char} (h : c.toNat < 128) : c.utf8Size = 1 := by
  unfold Char.utf8Size
  rw [if_pos]
  show c.val.toNat ≤ (127 : Nat)
  have hh : c.val.toNat = c.toNat := rfl
  omega

theorem sumUtf8_eq_length {l : List Char} (h : ∀ c ∈ l, c.toNat < 128) :
    (l.map Char.utf8Size).sum = l.length := by
  induction l with
  | nil => rfl
  | cons c rest ih =>
    simp only [List.map_cons, List.sum_cons, List.length_cons]
    rw [utf8Size_eq_one (h c (List.mem_cons_self _ _)),
      ih (fun x hx => h x (List.mem_cons_of_mem _ hx))]
    omega

theorem goLen_eq_length {s : String} (h : ∀ c ∈ s.data, c.toNat < 128) :
    goLen s = s.data.length := sumUtf8_eq_length h

theorem sumUtf8_ge_length (l : List Char) : l.length ≤ (l.map Char.utf8Size).sum := by
  induction l with
  | nil => simp
  | cons c rest ih =>
    simp only [List.map_cons, List.sum_cons, List.length_cons]
    have := Char.utf8Size_pos c
    omega

theorem length_le_goLen (s : String) : s.data.length ≤ goLen s :=
  sumUtf8_ge_length s.data

theorem dedup_map_sum (l : List Char) (f : Char → ℝ) :
    (l.dedup.map f).sum = ∑ c ∈ l.toFinset, f c := by
  have h1 : l.dedup.toFinset = l.toFinset := by
    ext a
    simp [List.mem_toFinset, List.mem_dedup]
  rw [← h1, List.sum_toFinset f (List.nodup_dedup l)]

theorem calculateEntropy_eq_sum (s : String) (h : ¬ goLen s = 0) :
    calculateEntropy s = ∑ c ∈ s.data.toFinset,
      -(((s.data.count c : ℝ) / (goLen s : ℝ)) *
        Real.logb 2 ((s.data.count c : ℝ) / (goLen s : ℝ))) := by
  unfold calculateEntropy
  rw [if_neg h, dedup_map_sum]

theorem calculateEntropy_nonneg (s : String) : 0 ≤ calculateEntropy s := by
  unfold calculateEntropy
  split
  · exact le_refl 0
  · rename_i h
    apply List.sum_nonneg
    intro x hx
    obtain ⟨c, hc, rfl⟩ := List.mem_map.mp hx
    dsimp only
    have hLpos : (0 : ℝ) < (goLen s : ℝ) := by
      exact_mod_cast Nat.pos_of_ne_zero h
    have hp0 : 0 ≤ (s.data.count c : ℝ) / (goLen s : ℝ) :=
      div_nonneg (Nat.cast_nonneg _) (Nat.cast_nonneg _)
    have hcount : s.data.count c ≤ goLen s :=
      le_trans (List.count_le_length _ _) (length_le_goLen _)
    have hp1 : (s.data.count c : ℝ) / (goLen s : ℝ) ≤ 1 := by
      rw [div_le_one hLpos]
      exact_mod_cast hcount
    have hlogb : Real.logb 2 ((s.data.count c : ℝ) / (goLen s : ℝ)) ≤ 0 :=
      Real.logb_nonpos (by norm_num) hp0 hp1
    nlinarith

theorem calculateEntropy_empty : calculateEntropy "" = 0 := rfl

theorem calculateEntropy_const (s : String) (hascii : ∀ c ∈ s.data, c.toNat < 128)
    (hconst : ∀ a ∈ s.data, ∀ b ∈ s.data, a = b) : calculateEntropy s = 0 := by
  by_cases hnil : goLen s = 0
  · unfold calculateEntropy
    rw [if_pos hnil]
  · unfold calculateEntropy
    rw [if_neg hnil]
    apply List.sum_eq_zero
    intro x hx
    obtain ⟨c, hc, rfl⟩ := List.mem_map.mp hx
    have hcmem : c ∈ s.data := List.mem_dedup.mp hc
    have hcount : s.data.count c = s.data.length :=
      List.count_eq_length.mpr (fun b hb => hconst c hcmem b hb)
    have hlen : goLen s = s.data.length := goLen_eq_length hascii
    have hlenne : ((s.data.length : ℕ) : ℝ) ≠ 0 := by
      rw [← hlen]
      exact_mod_cast hnil
    dsimp only
    rw [hcount, hlen, div_self hlenne, Real.logb_one]
    ring

theorem concaveOn_logb_two : ConcaveOn ℝ (Set.Ioi (0:ℝ)) (Real.logb 2) := by
  have h1 : ConcaveOn ℝ (Set.Ioi (0:ℝ)) Real.log := strictConcaveOn_log_Ioi.concaveOn
  have h2 := h1.smul (c := (Real.log 2)⁻¹) (by positivity)
  convert h2 using 1
  funext x
  simp [Real.logb, smul_eq_mul, div_eq_inv_mul]

theorem toFinset_card_eq_dedup_length (l : List Char) :
    l.toFinset.card = l.dedup.length := by
  rw [Finset.card, List.toFinset_val]
  simp

theorem calculateEntropy_le_logb (s : String) (hascii : ∀ c ∈ s.data, c.toNat < 128) :
    calculateEntropy s ≤ Real.logb 2 (s.data.dedup.length : ℝ) := by
  by_cases hnil : goLen s = 0
  · have hz : calculateEntropy s = 0 := by
      unfold calculateEntropy
      rw [if_pos hnil]
    have hdata : s.data = [] := by
      have h1 := length_le_goLen s
      rw [hnil] at h1
      exact List.length_eq_zero.mp (Nat.le_zero.mp h1)
    rw [hz, hdata]
    simp [Real.logb_zero]
  · have hL : goLen s = s.data.length := goLen_eq_length hascii
    have hLRpos : (0:ℝ) < (goLen s : ℝ) := by
      exact_mod_cast Nat.pos_of_ne_zero hnil
    rw [calculateEntropy_eq_sum s hnil]
    have hwpos : ∀ c ∈ s.data.toFinset, 0 < (s.data.count c : ℝ) / (goLen s : ℝ) := by
      intro c hc
      apply div_pos _ hLRpos
      have hcp : 0 < s.data.count c := List.count_pos_iff.mpr (List.mem_toFinset.mp hc)
      exact_mod_cast hcp
    have hw0 : ∀ c ∈ s.data.toFinset, 0 ≤ (s.data.count c : ℝ) / (goLen s : ℝ) :=
      fun c hc => le_of_lt (hwpos c hc)
    have hw1 : ∑ c ∈ s.data.toFinset, (s.data.count c : ℝ) / (goLen s : ℝ) = 1 := by
      rw [← Finset.sum_div]
      rw [show ∑ c ∈ s.data.toFinset, (s.data.count c : ℝ) =
          ((∑ c ∈ s.data.toFinset, s.data.count c : ℕ) : ℝ) from by push_cast; rfl]
      rw [List.sum_toFinset_count_eq_length]
      rw [← hL]
      exact div_self (ne_of_gt hLRpos)
    have hmem : ∀ c ∈ s.data.toFinset,
        ((s.data.count c : ℝ) / (goLen s : ℝ))⁻¹ ∈ Set.Ioi (0:ℝ) :=
      fun c hc => Set.mem_Ioi.mpr (inv_pos.mpr (hwpos c hc))
    have hjensen := concaveOn_logb_two.le_map_sum hw0 hw1 hmem
    have hlhs : ∑ c ∈ s.data.toFinset,
        ((s.data.count c : ℝ) / (goLen s : ℝ)) •
          Real.logb 2 (((s.data.count c : ℝ) / (goLen s : ℝ))⁻¹) =
        ∑ c ∈ s.data.toFinset,
          -(((s.data.count c : ℝ) / (goLen s : ℝ)) *
            Real.logb 2 ((s.data.count c : ℝ) / (goLen s : ℝ))) := by
      apply Finset.sum_congr rfl
      intro c hc
      rw [smul_eq_mul, Real.logb_inv]
      ring
    have hsum_inv : ∑ c ∈ s.data.toFinset,
        ((s.data.count c : ℝ) / (goLen s : ℝ)) •
          (((s.data.count c : ℝ) / (goLen s : ℝ))⁻¹) = (s.data.toFinset.card : ℝ) := by
      rw [Finset.sum_congr rfl (fun c hc => by
        rw [smul_eq_mul, mul_inv_cancel₀ (ne_of_gt (hwpos c hc))])]
      simp
    rw [hlhs, hsum_inv] at hjensen
    have hcard : ((s.data.toFinset.card : ℕ) : ℝ) = ((s.data.dedup.length : ℕ) : ℝ) := by
      exact_mod_cast congrArg Nat.cast (toFinset_card_eq_dedup_length s.data)
    rw [hcard] at hjensen
    exact hjensen

theorem count_pos_of_mem_toFinset {l : List Char} {c : Char} (hc : c ∈ l.toFinset) :
    0 < l.count c :=
  List.count_pos_iff.mpr (List.mem_toFinset.mp hc)

theorem freqPowProd_pos (s : String) : 0 < freqPowProd s :=
  Finset.prod_pos (fun c hc => pow_pos (count_pos_of_mem_toFinset hc) _)

theorem mul_entropy_eq (s : String) (hnil : ¬ goLen s = 0) :
    (goLen s : ℝ) * calculateEntropy s =
      Real.logb 2 (((goLen s ^ s.data.length : ℕ) : ℝ) / ((freqPowProd s : ℕ) : ℝ)) := by
  have hLpos : (0:ℝ) < (goLen s : ℝ) := by exact_mod_cast Nat.pos_of_ne_zero hnil
  rw [calculateEntropy_eq_sum s hnil, Finset.mul_sum]
  have hterm : ∀ c ∈ s.data.toFinset,
      (goLen s : ℝ) * -(((s.data.count c : ℝ) / (goLen s : ℝ)) *
        Real.logb 2 ((s.data.count c : ℝ) / (goLen s : ℝ))) =
      (s.data.count c : ℝ) * Real.logb 2 (goLen s : ℝ) -
        (s.data.count c : ℝ) * Real.logb 2 (s.data.count c : ℝ) := by
    intro c hc
    have hfpos : (0:ℝ) < (s.data.count c : ℝ) := by
      exact_mod_cast count_pos_of_mem_toFinset hc
    rw [Real.logb_div (ne_of_gt hfpos) (ne_of_gt hLpos)]
    field_simp
    ring
  rw [Finset.sum_congr rfl hterm, Finset.sum_sub_distrib]
  have h1 : ∑ c ∈ s.data.toFinset, (s.data.count c : ℝ) * Real.logb 2 (goLen s : ℝ) =
      Real.logb 2 (((goLen s ^ s.data.length : ℕ) : ℝ)) := by
    rw [← Finset.sum_mul]
    rw [show ∑ c ∈ s.data.toFinset, (s.data.count c : ℝ) =
        ((∑ c ∈ s.data.toFinset, s.data.count c : ℕ) : ℝ) from by push_cast; rfl]
    rw [List.sum_toFinset_count_eq_length]
    rw [show ((goLen s ^ s.data.length : ℕ) : ℝ) = (goLen s : ℝ) ^ s.data.length from by
      push_cast; rfl]
    rw [Real.logb_pow]
  have h2 : ∑ c ∈ s.data.toFinset,
      (s.data.count c : ℝ) * Real.logb 2 (s.data.count c : ℝ) =
      Real.logb 2 ((freqPowProd s : ℕ) : ℝ) := by
    have hstep : ∀ c ∈ s.data.toFinset,
        (s.data.count c : ℝ) * Real.logb 2 (s.data.count c : ℝ) =
        Real.logb 2 ((s.data.count c : ℝ) ^ (s.data.count c : ℕ)) := by
      intro c _
      rw [Real.logb_pow]
    rw [Finset.sum_congr rfl hstep]
    rw [← Real.logb_prod]
    · congr 1
      unfold freqPowProd
      push_cast
      rfl
    · intro c hc
      have hfpos : (0:ℝ) < (s.data.count c : ℝ) := by
        exact_mod_cast count_pos_of_mem_toFinset hc
      positivity
  rw [h1, h2]
  rw [Real.logb_div]
  · have := freqPowProd_pos s
    positivity
  · have := freqPowProd_pos s
    positivity

theorem highEntropyB_iff (s : String) :
    highEntropyB s = true ↔ 4 < calculateEntropy s := by
  by_cases hnil : goLen s = 0
  · have hdata : s.data = [] := by
      have h1 := length_le_goLen s
      rw [hnil] at h1
      exact List.length_eq_zero.mp (Nat.le_zero.mp h1)
    have hH : calculateEntropy s = 0 := by
      unfold calculateEntropy
      rw [if_pos hnil]
    have hB : highEntropyB s = false := by
      unfold highEntropyB freqPowProd
      rw [hnil]
      rw [hdata]
      simp
    rw [hH, hB]
    norm_num
  · have hLpos : (0:ℝ) < (goLen s : ℝ) := by exact_mod_cast Nat.pos_of_ne_zero hnil
    have hkey := mul_entropy_eq s hnil
    have hPposN := freqPowProd_pos s
    have hPpos : (0:ℝ) < ((freqPowProd s : ℕ) : ℝ) := by exact_mod_cast hPposN
    have hLRpos : (0:ℝ) < ((goLen s ^ s.data.length : ℕ) : ℝ) := by
      have : 0 < goLen s ^ s.data.length := pow_pos (Nat.pos_of_ne_zero hnil) _
      exact_mod_cast this
    have h4L : (4:ℝ) * (goLen s : ℝ) = Real.logb 2 ((2:ℝ) ^ (4 * goLen s)) := by
      rw [Real.logb_pow, Real.logb_self_eq_one (by norm_num)]
      push_cast
      ring
    constructor
    · intro hb
      have hnat : freqPowProd s * 2 ^ (4 * goLen s) < goLen s ^ s.data.length :=
        of_decide_eq_true hb
      have hreal : ((freqPowProd s : ℕ) : ℝ) * (2:ℝ) ^ (4 * goLen s) <
          ((goLen s ^ s.data.length : ℕ) : ℝ) := by
        push_cast
        exact_mod_cast hnat
      have hdivlt : (2:ℝ) ^ (4 * goLen s) <
          ((goLen s ^ s.data.length : ℕ) : ℝ) / ((freqPowProd s : ℕ) : ℝ) := by
        rw [lt_div_iff₀ hPpos]
        calc (2:ℝ) ^ (4 * goLen s) * ((freqPowProd s : ℕ) : ℝ)
            = ((freqPowProd s : ℕ) : ℝ) * (2:ℝ) ^ (4 * goLen s) := by ring
          _ < ((goLen s ^ s.data.length : ℕ) : ℝ) := hreal
      have hlogblt := (Real.logb_lt_logb_iff (b := 2) (by norm_num)
        (by positivity) (by positivity)).mpr hdivlt
      rw [← hkey, ← h4L] at hlogblt
      nlinarith
    · intro hH
      have hmul : (4:ℝ) * (goLen s : ℝ) < (goLen s : ℝ) * calculateEntropy s := by
        nlinarith
      rw [hkey, h4L] at hmul
      have hdivlt := (Real.logb_lt_logb_iff (b := 2) (by norm_num)
        (by positivity) (by positivity)).mp hmul
      have hreal : ((freqPowProd s : ℕ) : ℝ) * (2:ℝ) ^ (4 * goLen s) <
          ((goLen s ^ s.data.length : ℕ) : ℝ) := by
        rw [lt_div_iff₀ hPpos] at hdivlt
        calc ((freqPowProd s : ℕ) : ℝ) * (2:ℝ) ^ (4 * goLen s)
            = (2:ℝ) ^ (4 * goLen s) * ((freqPowProd s : ℕ) : ℝ) := by ring
          _ < ((goLen s ^ s.data.length : ℕ) : ℝ) := hdivlt
      have hnat : freqPowProd s * 2 ^ (4 * goLen s) < goLen s ^ s.data.length := by
        exact_mod_cast hreal
      exact decide_eq_true hnat

theorem entropy_eacute : calculateEntropy "é" = 1/2 := by
  unfold calculateEntropy
  rw [if_neg (by decide)]
  rw [show ("é").data.dedup = ['é'] from by decide]
  dsimp only [List.map_cons, List.map_nil, List.sum_cons, List.sum_nil]
  rw [show ("é").data.count 'é' = 1 from by decide, show goLen "é" = 2 from by decide]
  push_cast
  rw [show ((1:ℝ)/2) = (2:ℝ)⁻¹ from by norm_num, Real.logb_inv,
    Real.logb_self_eq_one (by norm_num)]
  norm_num

/-- C6 counterexample: the one-rune string `é` is constant (its rune list
is `['é']`), yet its computed entropy is 1/2 — the rune count is divided
by the two-byte UTF-8 length — so both the upper bound
log₂ |alphabet| = log₂ 1 = 0 and the constant-string clause fail. -/
theorem C6_counterexample :
    ("é").data = ['é']
    ∧ calculateEntropy "é" = 1/2
    ∧ ¬ calculateEntropy "é" ≤ Real.logb 2 ((("é").data.dedup.length : ℕ) : ℝ)
    ∧ calculateEntropy "é" ≠ 0 := by
  refine ⟨by decide, entropy_eacute, ?_, ?_⟩
  · rw [entropy_eacute, show ("é").data.dedup.length = 1 from by decide]
    rw [show (((1:ℕ)) : ℝ) = 1 from by norm_num, Real.logb_one]
    norm_num
  · rw [entropy_eacute]
    norm_num

/-- C6 (amended): entropy is nonnegative and vanishes on the empty
string for every input; for ASCII inputs — where the byte length used as
the divisor coincides with the rune count — it is bounded by
log₂ |alphabet| and vanishes on constant strings. -/
theorem C6_entropy_bounds :
    (∀ s : String, 0 ≤ calculateEntropy s)
    ∧ calculateEntropy "" = 0
    ∧ (∀ s : String, (∀ c ∈ s.data, c.toNat < 128) →
        calculateEntropy s ≤ Real.logb 2 (s.data.dedup.length : ℝ)
        ∧ ((∀ a ∈ s.data, ∀ b ∈ s.data, a = b) → calculateEntropy s = 0)) :=
  ⟨calculateEntropy_nonneg, calculateEntropy_empty, fun s h =>
    ⟨calculateEntropy_le_logb s h, fun hc => calculateEntropy_const s h hc⟩⟩

/-- Witness for the amended C6 at concrete ASCII strings. -/
theorem C6_witness :
    0 ≤ calculateEntropy "aab"
    ∧ calculateEntropy "aab" ≤ Real.logb 2 ((("aab").data.dedup.length : ℕ) : ℝ)
    ∧ calculateEntropy "aa" = 0 :=
  ⟨C6_entropy_bounds.1 "aab",
    (C6_entropy_bounds.2.2 "aab" (by decide)).1,
    (C6_entropy_bounds.2.2 "aa" (by decide)).2 (by decide)⟩

end ShieldCli
